import Mathlib

/-!
Verification of the snapshot ingestion engine of `simtools/sim_readers.py`.

Embedding conventions:
* floating-point scalars are modelled as rationals (`ℚ`);
* numpy arrays are modelled as `List`s, `(n, 3)` arrays as `List Vec3`;
* `np.argwhere(cond).flatten()` on a 1-d condition array is modelled as the
  ascending list of indices satisfying the condition;
* fallible operations (`raise`) are modelled with `Option`.

The helpers `vector_norm` and `recenter_coordinates` live in
`simtools/utils.py`, which is not part of the sources under verification;
they are modelled from the spec where marked.  Since `vector_norm` is a
Euclidean norm (an irrational square root), every comparison
`vector_norm v < rad` from the source is embedded in the equivalent exact
form `0 ≤ rad ∧ sqNorm v < rad * rad`, and distance values are compared
through their squares (the square root is strictly monotone on nonnegative
reals, so both encodings select and compare identically).
-/

namespace Simtools

attribute [local semireducible] Rat.add Rat.sub Rat.mul Rat.inv Rat.ofScientific

/-- A 3-vector with rational components (one row of an `(n, 3)` array). -/
structure Vec3 where
  x : ℚ
  y : ℚ
  z : ℚ
deriving DecidableEq, Repr

/-- Componentwise subtraction, as in the numpy broadcast `coords - pos`. -/
def vsub (a b : Vec3) : Vec3 := ⟨a.x - b.x, a.y - b.y, a.z - b.z⟩

/-- Zero vector, used as a `getD` default. -/
def v0 : Vec3 := ⟨0, 0, 0⟩

/-- Kernel-computable floor of a rational number. -/
def ratFloor (q : ℚ) : ℤ := q.num.fdiv q.den

/-- Modelled from the spec: `recenter_coordinates` (in `simtools/utils.py`,
not under the verified sources) applies the minimum-image convention,
wrapping a displacement component into `[-L/2, L/2)` for box size `L`. -/
def recenter (d L : ℚ) : ℚ := d - L * (ratFloor (d / L + 1/2) : ℚ)

/-- `recenter_coordinates` applied to each component of a displacement. -/
def recenterV (v : Vec3) (L : ℚ) : Vec3 :=
  ⟨recenter v.x L, recenter v.y L, recenter v.z L⟩

/-- Squared Euclidean norm.  `vector_norm` (modelled from the spec) is its
square root; comparisons against it are embedded via squares. -/
def sqNorm (v : Vec3) : ℚ := v.x * v.x + v.y * v.y + v.z * v.z

/-- The source test `vector_norm v < rad`, in exact squared form: for a
nonnegative radius this is `sqNorm v < rad²`; for a negative radius the
norm comparison is always false. -/
def normLt (v : Vec3) (rad : ℚ) : Bool :=
  decide (0 ≤ rad) && decide (sqNorm v < rad * rad)

/-- All components of a displacement already lie in the window `[-L/2, L/2)`. -/
def inWindow (v : Vec3) (L : ℚ) : Prop :=
  (-(L/2) ≤ v.x ∧ v.x < L/2) ∧ (-(L/2) ≤ v.y ∧ v.y < L/2) ∧
    (-(L/2) ≤ v.z ∧ v.z < L/2)

instance (v : Vec3) (L : ℚ) : Decidable (inWindow v L) := by
  unfold inWindow; infer_instance

/-- One region query of the hierarchical brute-force path
(`read_files`, sim_readers.py:454-461):
`np.argwhere(vector_norm(recenter_coordinates(coords - pos, box_size)) < rad)`. -/
def regionIndsOf (coords : List Vec3) (pos : Vec3) (rad L : ℚ) : List ℕ :=
  (coords.enum.filter (fun p => normLt (recenterV (vsub p.2 pos) L) rad)).map
    Prod.fst

/-- The per-query index sets of the hierarchical brute-force path:
one list of indices per `(center, radius)` pair, via `zip`. -/
def hierRegionInds (coords : List Vec3) (ps : List Vec3) (rs : List ℚ)
    (L : ℚ) : List (List ℕ) :=
  (ps.zip rs).map (fun q => regionIndsOf coords q.1 q.2 L)

/-- The binary path's selection against a single center
(`read_binary_snapshot`, sim_readers.py:399-402):
`np.argwhere(vector_norm(coords - pos) < rad)` — note: no
`recenter_coordinates`, the raw displacement is used. -/
def binarySelect (coords : List Vec3) (pos : Vec3) (rad : ℚ) : List ℕ :=
  (coords.enum.filter (fun p => normLt (vsub p.2 pos) rad)).map Prod.fst

/-- The binary path's region filter uses only `region_positions[0]` and
`region_radii[0]`; `none` models the `IndexError` on empty query lists. -/
def binaryRegionInds (coords : List Vec3) (ps : List Vec3) (rs : List ℚ) :
    Option (List ℕ) :=
  match ps, rs with
  | p :: _, r :: _ => some (binarySelect coords p r)
  | _, _ => none

/-- numpy `cumsum`: the list of running (inclusive) sums. -/
def npCumsum (l : List ℕ) : List ℕ := (l.scanl (· + ·) 0).drop 1

/-- The per-region cross-file concatenations built by `stack`
(sim_readers.py:643-646): `snapdata` is the per-file list of per-region
arrays of one field, `nc` the number of region queries. -/
def stackRegions (snapdata : List (List (List ℚ))) (nc : ℕ) :
    List (List ℚ) :=
  (List.range nc).map (fun ri => (snapdata.map (fun x => x.getD ri [])).flatten)

/-- `stack` in the region case (sim_readers.py:639-648): the concatenated
field array together with `np.cumsum([0] + [len(region) for region in
regions])`. -/
def stackWithRegions (snapdata : List (List (List ℚ))) (nc : ℕ) :
    List ℚ × List ℕ :=
  ((stackRegions snapdata nc).flatten,
    npCumsum (0 :: (stackRegions snapdata nc).map List.length))

/-- `self.region_offsets = region_offsets[:-1]` (sim_readers.py:673). -/
def regionOffsetsAttr (off : List ℕ) : List ℕ := off.dropLast

/-- `self.region_slices = [slice(*x) for x in zip(region_offsets[:-1],
region_offsets[1:]))]` (sim_readers.py:674-676). -/
def regionSlicesAttr (off : List ℕ) : List (ℕ × ℕ) :=
  off.dropLast.zip (off.drop 1)

/-- numpy slice `arr[a:b]`. -/
def sliceOf (arr : List ℚ) (a b : ℕ) : List ℚ := (arr.drop a).take (b - a)

/-- Python `str.split('.')` on the characters of a filename. -/
def splitDots : List Char → List (List Char)
  | [] => [[]]
  | c :: cs =>
      let r := splitDots cs
      if c = '.' then [] :: r else (c :: r.headD []) :: r.tail

/-- Python `str.isdigit` (ASCII digits): nonempty and all digits. -/
def pyIsDigit (cs : List Char) : Bool := !cs.isEmpty && cs.all Char.isDigit

/-- Python `int` applied to a digit string. -/
def digitsToNat (cs : List Char) : ℕ :=
  cs.foldl (fun n c => 10 * n + (c.toNat - 48)) 0

/-- The `while` loop of `reorder_subfiles` (sim_readers.py:34-37): starting
at column `ii` with `fuel` columns left to inspect, return the first column
index at which every file's dot-separated entry is purely numeric. -/
def findSubfileCol (splt : List (List (List Char))) : ℕ → ℕ → Option ℕ
  | _, 0 => none
  | ii, fuel + 1 =>
      if splt.all (fun row => pyIsDigit (row.getD ii [])) then some ii
      else findSubfileCol splt (ii + 1) fuel

/-- The numeric sub-file key of filename `f` in dot-column `ii`. -/
def subKey (ii : ℕ) (f : String) : ℕ :=
  digitsToNat ((splitDots f.toList).getD ii [])

/-- Ascending comparison of (sub-file number, filename) pairs, as used to
model `np.argsort(subnums)`. -/
def keyLe (a b : ℕ × String) : Prop := a.1 ≤ b.1

instance : DecidableRel keyLe := fun a b => Nat.decLe a.1 b.1

instance : IsTotal (ℕ × String) keyLe := ⟨fun a b => Nat.le_total a.1 b.1⟩

instance : IsTrans (ℕ × String) keyLe := ⟨fun _ _ _ => Nat.le_trans⟩

/-- `GadgetBox.reorder_subfiles` (sim_readers.py:25-42).  `none` models the
raised `ValueError` (same message for a ragged split — numpy refuses the
array — and for the no-numeric-column case).  `np.argsort` is modelled by
a sort on the numeric key; `argsort`'s order among equal keys is
unspecified, and the claims only involve distinct keys. -/
def splitAll (subfiles : List String) : List (List (List Char)) :=
  subfiles.map (fun f => splitDots f.toList)

def reorder_subfiles (subfiles : List String) : Option (List String) :=
  if (splitAll subfiles).all
      (fun row => row.length = ((splitAll subfiles).headD []).length) then
    match findSubfileCol (splitAll subfiles) 0
        ((splitAll subfiles).headD []).length with
    | some ii =>
        some (((subfiles.map (fun f => (subKey ii f, f))).insertionSort
          keyLe).map Prod.snd)
    | none => none
  else none

/-- The per-particle-type datasets of one hierarchical sub-file (the
`PartType{N}` group): `Coordinates`, `ParticleIDs` and `Velocities` are
read unconditionally when requested; the other datasets are
presence-tested with `'Name' in list(snappt)`. -/
structure PartData where
  coordinates : List Vec3
  particleIDs : List ℕ
  velocities : List Vec3
  masses : Option (List ℚ)
  metallicity : Option (List ℚ)
  stellarFormationTime : Option (List ℚ)
  density : Option (List ℚ)
  internalEnergy : Option (List ℚ)
deriving DecidableEq, Repr

/-- The two index-application strategies, `read_mode == 1` and
`read_mode == 2`; any other value leaves the per-field variables
unassigned in the source (a NameError), so only these two are modelled. -/
inductive ReadMode where
  | one
  | two
deriving DecidableEq, Repr

/-- numpy fancy indexing `data[inds]` (with a default for the
out-of-bounds case, which numpy would reject). -/
def gatherD {α : Type} (d : α) (data : List α) (inds : List ℕ) : List α :=
  inds.map (fun i => data.getD i d)

/-- `np.unique(inds)`: the ascending list of the distinct values. -/
def npUnique (inds : List ℕ) : List ℕ :=
  inds.dedup.insertionSort (· ≤ ·)

/-- The `return_inverse` map of `np.unique`: for each original entry, its
position in the unique array. -/
def npUniqueInv (inds : List ℕ) : List ℕ :=
  inds.map (fun i => (npUnique inds).indexOf i)

/-- Boolean-mask indexing `data[mask]`, the mask being true exactly at the
positions listed in `u` (sim_readers.py:484-489 builds such masks from the
unique index set): the entries of `data` at the ascending masked
positions. -/
def maskGather {α : Type} (d : α) (data : List α) (u : List ℕ) : List α :=
  gatherD d data ((List.range data.length).filter (fun i => decide (i ∈ u)))

/-- `np.split(arr, cuts)[:-1]`: the segments of `arr` between consecutive
cut points, the trailing remainder dropped. -/
def npSplitInit {α : Type} (arr : List α) (cuts : List ℕ) : List (List α) :=
  (cuts.zip (0 :: cuts)).map (fun cp => (arr.drop cp.2).take (cp.1 - cp.2))

/-- `read_mode == 1` for one dataset (e.g. sim_readers.py:497-500, 504):
fancy-index with the flattened index vector, then split at the cumulative
region lengths. -/
def fieldMode1 {α : Type} (d : α) (data : List α) (flat lens : List ℕ) :
    List (List α) :=
  npSplitInit (gatherD d data flat) (npCumsum lens)

/-- `read_mode == 2` for one dataset (e.g. sim_readers.py:501-503):
boolean-mask read of the unique index set, broadcast back through the
inverse map, then split. -/
def fieldMode2 {α : Type} (d : α) (data : List α) (flat lens : List ℕ) :
    List (List α) :=
  npSplitInit
    (gatherD d (maskGather d data (npUnique flat)) (npUniqueInv flat))
    (npCumsum lens)

/-- Dispatch on `read_mode` for a well-behaved dataset. -/
def fieldByMode {α : Type} (d : α) (mode : ReadMode) (data : List α)
    (flat lens : List ℕ) : List (List α) :=
  match mode with
  | .one => fieldMode1 d data flat lens
  | .two => fieldMode2 d data flat lens

/-- The `Density` branch of `read_files` (sim_readers.py:588-603).  In
`read_mode == 1` the source reads the full dataset into `densities` and
then — a slip — fancy-indexes `formation_times` instead of `densities`
(line 595; at runtime this raises `TypeError`, `formation_times` being by
then a per-region list or `None`).  The `densities` variable itself stays
unindexed, so the subsequent split is applied to the full dataset. -/
def densityByMode (mode : ReadMode) (data : List ℚ) (flat lens : List ℕ) :
    List (List ℚ) :=
  match mode with
  | .one => npSplitInit data (npCumsum lens)
  | .two => fieldMode2 0 data flat lens

/-- One component of the tuple returned by `read_files`; `absent` is
Python's `None`. -/
inductive FieldOut where
  | absent
  | scalar (m : ℚ)
  | flatN (xs : List ℕ)
  | flatQ (xs : List ℚ)
  | flatV (xs : List Vec3)
  | regsN (xs : List (List ℕ))
  | regsQ (xs : List (List ℚ))
  | regsV (xs : List (List Vec3))
deriving DecidableEq, Repr

/-- `read_files` (sim_readers.py:439-627) for one hierarchical sub-file,
its returned tuple modelled as a list of fields.  With region queries and
no particle matching any query it returns the SIX-component tuple of
lines 472-477; in every other case the EIGHT-component tuple of
lines 626-627. -/
def read_files (pd : PartData) (massTable : ℚ)
    (regionQ : Option (List Vec3 × List ℚ)) (L : ℚ)
    (load_ids load_coords load_vels load_masses : Bool) (mode : ReadMode) :
    List FieldOut :=
  match regionQ with
  | none =>
      [if load_ids then .flatN pd.particleIDs else .absent,
        if load_coords then .flatV pd.coordinates else .absent,
        if load_vels then .flatV pd.velocities else .absent,
        if load_masses then
          (match pd.masses with
            | some ms => .flatQ ms
            | none => .scalar massTable)
        else .absent,
        (match pd.metallicity with
          | some zs => .flatQ zs
          | none => .absent),
        (match pd.stellarFormationTime with
          | some ts => .flatQ ts
          | none => .absent),
        (match pd.density with
          | some ds => .flatQ ds
          | none => .absent),
        (match pd.internalEnergy with
          | some us => .flatQ us
          | none => .absent)]
  | some (ps, rs) =>
      let lens := (hierRegionInds pd.coordinates ps rs L).map List.length
      let flat := (hierRegionInds pd.coordinates ps rs L).flatten
      if flat.isEmpty then
        [.regsN (List.replicate ps.length []),
          .regsV (List.replicate ps.length []),
          .regsV (List.replicate ps.length []),
          .regsQ (List.replicate ps.length []),
          (match pd.metallicity with
            | some _ => .regsQ (List.replicate ps.length [])
            | none => .absent),
          (match pd.stellarFormationTime with
            | some _ => .regsQ (List.replicate ps.length [])
            | none => .absent)]
      else
        [if load_ids then
            .regsN (fieldByMode 0 mode pd.particleIDs flat lens)
          else .absent,
          if load_coords then
            .regsV (npSplitInit (gatherD v0 pd.coordinates flat)
              (npCumsum lens))
          else .absent,
          if load_vels then
            .regsV (fieldByMode v0 mode pd.velocities flat lens)
          else .absent,
          if load_masses then
            (match pd.masses with
              | some ms => .regsQ (fieldByMode 0 mode ms flat lens)
              | none => .scalar massTable)
          else .absent,
          (match pd.metallicity with
            | some zs => .regsQ (fieldByMode 0 mode zs flat lens)
            | none => .absent),
          (match pd.stellarFormationTime with
            | some ts => .regsQ (fieldByMode 0 mode ts flat lens)
            | none => .absent),
          (match pd.density with
            | some ds => .regsQ (densityByMode mode ds flat lens)
            | none => .absent),
          (match pd.internalEnergy with
            | some us => .regsQ (fieldByMode 0 mode us flat lens)
            | none => .absent)]

/-- A gas sub-file with three particles, two of which (indices 1 and 2)
fall in the single region of radius 2 around the origin. -/
def pdGas : PartData :=
  ⟨[⟨5, 5, 5⟩, ⟨1, 0, 0⟩, ⟨0, 1, 0⟩], [10, 11, 12], [v0, v0, v0],
    some [1, 1, 1], none, none, some [3, 5, 7], some [4, 6, 8]⟩

/-- A gas sub-file whose single particle matches no region query. -/
def pdMiss : PartData :=
  ⟨[⟨5, 5, 5⟩], [10], [v0], some [1], none, none, some [2], some [3]⟩

/-- One binary sub-file's contribution to the mass read: the per-type
particle counts from its header and its per-particle mass block. -/
structure BinFile where
  counts : List ℕ
  massBlock : List ℚ
deriving DecidableEq, Repr

/-- `idx_with_mass = np.where(self.mass_table == 0)[0]`
(sim_readers.py:296). -/
def idx_with_mass (mass_table : List ℚ) : List ℕ :=
  (List.range mass_table.length).filter
    (fun i => decide (mass_table.getD i 0 = 0))

/-- sim_readers.py:297-300: masses come from the table iff the requested
type is NOT among the zero-entry types. -/
def masses_from_table (mass_table : List ℚ) (pt : ℕ) : Bool :=
  decide (pt ∉ idx_with_mass mass_table)

/-- `ptype_offset_in_mass_block` (sim_readers.py:325-329): the cumulative
count, over the zero-mass-table types up to and including `pt`, minus this
file's own count of `pt` — the mass block's internal layout excludes the
types with a table mass. -/
def massBlockOffset (mass_table : List ℚ) (pt : ℕ) (counts : List ℕ) : ℕ :=
  (((idx_with_mass mass_table).take
      ((idx_with_mass mass_table).indexOf pt + 1)).map
    (fun i => counts.getD i 0)).sum - counts.getD pt 0

/-- The mass entries one file contributes for type `pt`
(`np.fromfile(snap, count=npart)` after seeking past the earlier types of
the mass block, sim_readers.py:372-377). -/
def fileMassSlice (mass_table : List ℚ) (pt : ℕ) (f : BinFile) : List ℚ :=
  (f.massBlock.drop (massBlockOffset mass_table pt f.counts)).take
    (f.counts.getD pt 0)

/-- `np.concatenate(masses_all)`: files with zero particles of the type
are skipped by the `continue` of sim_readers.py:316-317. -/
def binaryMassVector (mass_table : List ℚ) (pt : ℕ)
    (files : List BinFile) : List ℚ :=
  ((files.filter (fun f => decide (f.counts.getD pt 0 ≠ 0))).map
    (fileMassSlice mass_table pt)).flatten

/-- The mass result of the binary reader: a uniform scalar or a
per-particle vector. -/
inductive MassOut where
  | scalar (m : ℚ)
  | vector (ms : List ℚ)
deriving DecidableEq, Repr

/-- The mass output of `read_binary_snapshot` (sim_readers.py:296-300 with
423-430; the region branch 407-414 applies the same logic after index
selection): the table scalar when the type's table entry is non-zero;
otherwise the concatenated block entries, collapsed to a scalar when all
of them are equal (`np.all(masses == masses[0])`). -/
def read_binary_masses (mass_table : List ℚ) (pt : ℕ)
    (files : List BinFile) : MassOut :=
  if masses_from_table mass_table pt then .scalar (mass_table.getD pt 0)
  else
    if (binaryMassVector mass_table pt files).all
        (fun m => decide (m = (binaryMassVector mass_table pt files).headD 0))
    then .scalar ((binaryMassVector mass_table pt files).headD 0)
    else .vector (binaryMassVector mass_table pt files)

/-- The named attributes of an hdf5 `Header` or `Parameters` group that
`read_parameters` consults (sim_readers.py:46-109); an absent attribute is
`none`. -/
structure AttrGroup where
  BoxSize : Option ℚ
  Redshift : Option ℚ
  Time : Option ℚ
  NSample : Option ℚ
  Omega0 : Option ℚ
  OmegaBaryon : Option ℚ
  OmegaLambda : Option ℚ
  HubbleParam : Option ℚ
  Hubble : Option ℚ
  UnitLength_in_cm : Option ℚ
  UnitMass_in_g : Option ℚ
  UnitVelocity_in_cm_per_s : Option ℚ
  ComovingIntegrationOn : Option ℚ
deriving DecidableEq, Repr

/-- One hierarchical file's metadata: its optional `Header` and
`Parameters` groups. -/
structure FileMeta where
  header : Option AttrGroup
  parameters : Option AttrGroup
deriving DecidableEq, Repr

/-- The raw attributes scanned off the groups before defaulting; `none`
models an attribute never assigned (`hasattr` false). -/
structure BoxScan where
  box_size : Option ℚ
  redshift : Option ℚ
  scale_factor : Option ℚ
  time : Option ℚ
  nsample : Option ℚ
  Omega0 : Option ℚ
  OmegaBaryon : Option ℚ
  OmegaLambda : Option ℚ
  h : Option ℚ
  hubble : Option ℚ
  unit_length_in_cm : Option ℚ
  unit_mass_in_g : Option ℚ
  unit_velocity_in_cm_per_s : Option ℚ
deriving DecidableEq, Repr

/-- The `Header` group scan (sim_readers.py:47-77). -/
def applyHeader (s : BoxScan) (g : AttrGroup) : BoxScan :=
  let s := match g.BoxSize with
    | some v => { s with box_size := some v }
    | none => s
  let s := match g.Redshift with
    | some z => { s with
        redshift := some z
        scale_factor := some (1 / (1 + z)) }
    | none => s
  let s := match g.Time with
    | some v => { s with time := some v }
    | none => s
  let s := { s with nsample := some (g.NSample.getD 1) }
  let s := match g.Omega0 with
    | some v => { s with Omega0 := some v }
    | none => s
  let s := match g.OmegaBaryon with
    | some v => { s with OmegaBaryon := some v }
    | none => s
  let s := match g.OmegaLambda with
    | some v => { s with OmegaLambda := some v }
    | none => s
  let s := match g.HubbleParam with
    | some v => { s with h := some v }
    | none => s
  let s := match g.Hubble with
    | some v => { s with hubble := some v }
    | none => s
  let s := match g.UnitLength_in_cm with
    | some v => { s with unit_length_in_cm := some v }
    | none => s
  let s := match g.UnitMass_in_g with
    | some v => { s with unit_mass_in_g := some v }
    | none => s
  match g.UnitVelocity_in_cm_per_s with
    | some v => { s with unit_velocity_in_cm_per_s := some v }
    | none => s

/-- The `Parameters` group scan (sim_readers.py:78-109); its `Time` and
`ComovingIntegrationOn`-derived scale factor override the header's. -/
def applyParameters (s : BoxScan) (g : AttrGroup) : BoxScan :=
  let s := match g.Time with
    | some v => { s with time := some v }
    | none => s
  let s := match g.ComovingIntegrationOn with
    | some c => if c = 1 then { s with scale_factor := s.time } else s
    | none => s
  let s := { s with nsample := some (g.NSample.getD 1) }
  let s := match g.Omega0 with
    | some v => { s with Omega0 := some v }
    | none => s
  let s := match g.OmegaBaryon with
    | some v => { s with OmegaBaryon := some v }
    | none => s
  let s := match g.OmegaLambda with
    | some v => { s with OmegaLambda := some v }
    | none => s
  let s := match g.HubbleParam with
    | some v => { s with h := some v }
    | none => s
  let s := match g.Hubble with
    | some v => { s with hubble := some v }
    | none => s
  let s := match g.UnitLength_in_cm with
    | some v => { s with unit_length_in_cm := some v }
    | none => s
  let s := match g.UnitMass_in_g with
    | some v => { s with unit_mass_in_g := some v }
    | none => s
  match g.UnitVelocity_in_cm_per_s with
    | some v => { s with unit_velocity_in_cm_per_s := some v }
    | none => s

/-- The unit-system and cosmology record left on the snapshot instance by
`read_parameters`.  `hubble_parameter` and `critical_density` are derived
from the fields recorded here through the external `hubble_parameter`
routine (a square root) and π; having no exact rational value, they are
not duplicated in the model. -/
structure BoxParams where
  box_size : Option ℚ
  redshift : Option ℚ
  scale_factor : Option ℚ
  time : Option ℚ
  nsample : Option ℚ
  Omega0 : ℚ
  OmegaBaryon : ℚ
  OmegaLambda : ℚ
  h : ℚ
  hubble : ℚ
  unit_length_in_cm : ℚ
  unit_mass_in_g : ℚ
  unit_velocity_in_cm_per_s : ℚ
  unit_time_in_s : ℚ
  gravitational_constant : ℚ
  hubble_constant : ℚ
deriving DecidableEq, Repr

/-- `read_parameters` for a format-3 file (sim_readers.py:46-109 with the
defaulting epilogue 167-216): scan `Header` then `Parameters`, then apply
the documented defaults (1 kpc, 10^10 Msun, 1 km/s, h = 0.7,
Hubble = 0.1·length_norm/velocity_norm), the derived time unit, the
gravitational constant 43009.1727·mass_norm/(length_norm·velocity_norm²)
and the dimensionful Hubble constant `h * hubble`.  `initUnits` are the
constructor-supplied unit overrides. -/
def read_parameters_hdf5 (meta : FileMeta)
    (initUnits : Option ℚ × Option ℚ × Option ℚ) : BoxParams :=
  let s0 : BoxScan := ⟨none, none, none, none, none, none, none, none,
    none, none, initUnits.1, initUnits.2.1, initUnits.2.2⟩
  let s1 := match meta.header with
    | some g => applyHeader s0 g
    | none => s0
  let s2 := match meta.parameters with
    | some g => applyParameters s1 g
    | none => s1
  let ul := s2.unit_length_in_cm.getD (3085678 * 10 ^ 15)
  let um := s2.unit_mass_in_g.getD (1989 * 10 ^ 40)
  let uv := s2.unit_velocity_in_cm_per_s.getD (10 ^ 5)
  let length_norm := ul / (3085678 * 10 ^ 15)
  let mass_norm := um / (1989 * 10 ^ 40)
  let velocity_norm := uv / 10 ^ 5
  let h := s2.h.getD (7 / 10)
  let hubble := s2.hubble.getD (1 / 10 * length_norm / velocity_norm)
  { box_size := s2.box_size
    redshift := s2.redshift
    scale_factor := s2.scale_factor
    time := s2.time
    nsample := s2.nsample
    Omega0 := s2.Omega0.getD 0
    OmegaBaryon := s2.OmegaBaryon.getD 0
    OmegaLambda := s2.OmegaLambda.getD 0
    h := h
    hubble := hubble
    unit_length_in_cm := ul
    unit_mass_in_g := um
    unit_velocity_in_cm_per_s := uv
    unit_time_in_s := ul / uv
    gravitational_constant :=
      430091727 / 10000 * mass_norm / (length_norm * velocity_norm ^ 2)
    hubble_constant := h * hubble }

/-- A hierarchical sub-file: metadata, the requested particle type's
datasets, and that type's `MassTable` entry. -/
structure HFile where
  meta : FileMeta
  pd : PartData
  massTableEntry : ℚ
deriving DecidableEq, Repr

/-- Placeholder sub-file used only as the `headD` default (the source
never reads an empty file list: `read_snapshot` is only called when the
glob matched at least one file). -/
def hfile0 : HFile :=
  ⟨⟨none, none⟩, ⟨[], [], [], none, none, none, none, none⟩, 0⟩

def toFlatN : FieldOut → List ℕ
  | .flatN xs => xs
  | _ => []

def toFlatQ : FieldOut → List ℚ
  | .flatQ xs => xs
  | _ => []

def toFlatV : FieldOut → List Vec3
  | .flatV xs => xs
  | _ => []

def toRegsN : FieldOut → List (List ℕ)
  | .regsN xs => xs
  | _ => []

def toRegsQ : FieldOut → List (List ℚ)
  | .regsQ xs => xs
  | _ => []

def toRegsV : FieldOut → List (List Vec3)
  | .regsV xs => xs
  | _ => []

/-- `stack(index)` (sim_readers.py:639-648) over the modelled per-file
tuples: without regions, the plain cross-file concatenation (and `None`
for the offsets); with `nc` regions, the per-region concatenations
flattened plus `np.cumsum([0] + lens)`.  The element family is read off
the first file's entry. -/
def stackF (snapdata : List (List FieldOut)) (idx : ℕ)
    (nregions : Option ℕ) : FieldOut × Option (List ℕ) :=
  match nregions with
  | none =>
      match (snapdata.headD []).getD idx .absent with
      | .flatN _ =>
          (.flatN ((snapdata.map
            (fun x => toFlatN (x.getD idx .absent))).flatten), none)
      | .flatQ _ =>
          (.flatQ ((snapdata.map
            (fun x => toFlatQ (x.getD idx .absent))).flatten), none)
      | .flatV _ =>
          (.flatV ((snapdata.map
            (fun x => toFlatV (x.getD idx .absent))).flatten), none)
      | _ => (.absent, none)
  | some nc =>
      match (snapdata.headD []).getD idx .absent with
      | .regsN _ =>
          ((.regsN ((List.range nc).map (fun ri => (snapdata.map
              (fun x => (toRegsN (x.getD idx .absent)).getD ri [])).flatten))),
            some (npCumsum (0 :: ((List.range nc).map (fun ri =>
              (snapdata.map (fun x =>
                (toRegsN (x.getD idx .absent)).getD ri [])).flatten)).map
              List.length)))
      | .regsQ _ =>
          (.regsQ (stackRegions (snapdata.map
              (fun x => toRegsQ (x.getD idx .absent))) nc),
            some (stackWithRegions (snapdata.map
              (fun x => toRegsQ (x.getD idx .absent))) nc).2)
      | .regsV _ =>
          ((.regsV ((List.range nc).map (fun ri => (snapdata.map
              (fun x => (toRegsV (x.getD idx .absent)).getD ri [])).flatten))),
            some (npCumsum (0 :: ((List.range nc).map (fun ri =>
              (snapdata.map (fun x =>
                (toRegsV (x.getD idx .absent)).getD ri [])).flatten)).map
              List.length)))
      | _ => (.absent, none)

/-- The attributes `read_snapshot` leaves on the snapshot instance; a
`none` field models an attribute that is never created. -/
structure SnapshotState where
  params : BoxParams
  ids : Option FieldOut
  coordinates : Option FieldOut
  velocities : Option FieldOut
  masses : Option FieldOut
  metallicities : Option FieldOut
  formation_times : Option FieldOut
  densities : Option FieldOut
  internal_energies : Option FieldOut
  region_offsets : Option (List ℕ)
  region_slices : Option (List (ℕ × ℕ))
deriving DecidableEq, Repr

/-- `read_hdf5_snapshot` (sim_readers.py:437-676): per-file reads merged
with `stack`, sequentially re-binding `region_offsets` exactly where the
source assigns it (each executed `stack` call overwrites it; a scalar mass
does not).  The final velocity scaling by `sqrt(1+redshift)` is irrational
and left out of the rational model: `velocities` holds the unscaled
concatenation. -/
def read_hdf5_snapshot (files : List HFile) (params : BoxParams)
    (regionQ : Option (List Vec3 × List ℚ))
    (load_ids load_coords load_vels load_masses : Bool) (mode : ReadMode) :
    SnapshotState :=
  let snapdata := files.map (fun f =>
    read_files f.pd f.massTableEntry regionQ (params.box_size.getD 0)
      load_ids load_coords load_vels load_masses mode)
  let nro : Option ℕ := regionQ.map (fun q => q.1.length)
  let ro : Option (List ℕ) := none
  let (ids, ro) := if load_ids then
      (some (stackF snapdata 0 nro).1, (stackF snapdata 0 nro).2)
    else (none, ro)
  let (coords, ro) := if load_coords then
      (some (stackF snapdata 1 nro).1, (stackF snapdata 1 nro).2)
    else (none, ro)
  let (vels, ro) := if load_vels then
      (some (stackF snapdata 2 nro).1, (stackF snapdata 2 nro).2)
    else (none, ro)
  let (masses, ro) := if load_masses then
      (match (snapdata.headD []).getD 3 .absent with
        | .scalar m => (some (.scalar m), ro)
        | _ => (some (stackF snapdata 3 nro).1, (stackF snapdata 3 nro).2))
    else (none, ro)
  let (mets, ro) := if (snapdata.headD []).getD 4 .absent ≠ .absent then
      (some (stackF snapdata 4 nro).1, (stackF snapdata 4 nro).2)
    else (none, ro)
  let (sfts, ro) := if (snapdata.headD []).getD 5 .absent ≠ .absent then
      (some (stackF snapdata 5 nro).1, (stackF snapdata 5 nro).2)
    else (none, ro)
  let (dens, ro) := if (snapdata.headD []).getD 6 .absent ≠ .absent then
      (some (stackF snapdata 6 nro).1, (stackF snapdata 6 nro).2)
    else (none, ro)
  let (ies, ro) := if (snapdata.headD []).getD 7 .absent ≠ .absent then
      (some (stackF snapdata 7 nro).1, (stackF snapdata 7 nro).2)
    else (none, ro)
  { params := params
    ids := ids
    coordinates := coords
    velocities := vels
    masses := masses
    metallicities := mets
    formation_times := sfts
    densities := dens
    internal_energies := ies
    region_offsets := ro.map regionOffsetsAttr
    region_slices := ro.map regionSlicesAttr }

/-- `GadgetSnapshot.read_snapshot` (sim_readers.py:274-698), format-3
branch: `read_parameters` runs on the FIRST sub-file (lines 678-683), then
— if none of the four load flags is set — the method returns right there
(lines 685-687), before any region handling or particle read; the binary
branch shares this same guard. -/
def read_snapshot (files : List HFile)
    (initUnits : Option ℚ × Option ℚ × Option ℚ)
    (regionQ : Option (List Vec3 × List ℚ))
    (load_ids load_coords load_vels load_masses : Bool)
    (mode : ReadMode) : SnapshotState :=
  let params := read_parameters_hdf5 (files.headD hfile0).meta initUnits
  if load_ids || load_coords || load_vels || load_masses then
    read_hdf5_snapshot files params regionQ load_ids load_coords load_vels
      load_masses mode
  else
    { params := params
      ids := none
      coordinates := none
      velocities := none
      masses := none
      metallicities := none
      formation_times := none
      densities := none
      internal_energies := none
      region_offsets := none
      region_slices := none }

theorem ratFloor_eq_floor (q : ℚ) : ratFloor q = ⌊q⌋ :=
  (Int.fdiv_eq_ediv _ (Int.natCast_nonneg _)).trans Rat.floor_def.symm

/-- Membership in a brute-force region index set. -/
theorem mem_regionIndsOf {coords : List Vec3} {pos : Vec3} {rad L : ℚ}
    {i : ℕ} :
    i ∈ regionIndsOf coords pos rad L ↔
      ∃ c, coords[i]? = some c ∧
        normLt (recenterV (vsub c pos) L) rad = true := by
  unfold regionIndsOf
  constructor
  · intro h
    obtain ⟨⟨j, c⟩, hmem, rfl⟩ := List.mem_map.mp h
    obtain ⟨henum, hsel⟩ := List.mem_filter.mp hmem
    exact ⟨c, List.mk_mem_enum_iff_getElem?.mp henum, hsel⟩
  · rintro ⟨c, hget, hsel⟩
    exact List.mem_map.mpr ⟨(i, c),
      List.mem_filter.mpr ⟨List.mk_mem_enum_iff_getElem?.mpr hget, hsel⟩, rfl⟩

/-- Membership in the binary path's index set. -/
theorem mem_binarySelect {coords : List Vec3} {pos : Vec3} {rad : ℚ}
    {i : ℕ} :
    i ∈ binarySelect coords pos rad ↔
      ∃ c, coords[i]? = some c ∧ normLt (vsub c pos) rad = true := by
  unfold binarySelect
  constructor
  · intro h
    obtain ⟨⟨j, c⟩, hmem, rfl⟩ := List.mem_map.mp h
    obtain ⟨henum, hsel⟩ := List.mem_filter.mp hmem
    exact ⟨c, List.mk_mem_enum_iff_getElem?.mp henum, hsel⟩
  · rintro ⟨c, hget, hsel⟩
    exact List.mem_map.mpr ⟨(i, c),
      List.mem_filter.mpr ⟨List.mk_mem_enum_iff_getElem?.mpr hget, hsel⟩, rfl⟩

theorem recenter_mem_window {d L : ℚ} (hL : 0 < L) :
    -(L/2) ≤ recenter d L ∧ recenter d L < L/2 := by
  unfold recenter
  rw [ratFloor_eq_floor]
  have h1 : (⌊d / L + 1/2⌋ : ℚ) ≤ d / L + 1/2 := Int.floor_le _
  have h2 : d / L + 1/2 < (⌊d / L + 1/2⌋ : ℚ) + 1 := Int.lt_floor_add_one _
  have hx : d = L * (d / L) := (mul_div_cancel₀ d hL.ne').symm
  constructor
  · nlinarith [mul_le_mul_of_nonneg_left h1 hL.le]
  · nlinarith [mul_le_mul_of_nonneg_left h2.le hL.le,
      mul_lt_mul_of_pos_left h2 hL]

theorem recenter_eq_sub_int_mul (d L : ℚ) :
    ∃ k : ℤ, recenter d L = d - L * k :=
  ⟨ratFloor (d / L + 1/2), rfl⟩

/-- If a component already lies in `[-L/2, L/2)`, wrapping leaves it fixed. -/
theorem recenter_eq_self {d L : ℚ} (hL : 0 < L) (h1 : -(L/2) ≤ d)
    (h2 : d < L/2) : recenter d L = d := by
  unfold recenter
  rw [ratFloor_eq_floor]
  have ha : -(1/2 : ℚ) ≤ d / L := by
    rw [le_div_iff₀ hL]; linarith
  have hb : d / L < 1/2 := by
    rw [div_lt_iff₀ hL]; linarith
  have hfl : ⌊d / L + 1/2⌋ = 0 := by
    rw [Int.floor_eq_zero_iff, Set.mem_Ico]
    exact ⟨by linarith, by linarith⟩
  rw [hfl]
  push_cast
  ring

/-- Wrapping a whole displacement already inside the window is the identity. -/
theorem recenterV_eq_self {v : Vec3} {L : ℚ} (hL : 0 < L)
    (h : inWindow v L) : recenterV v L = v := by
  obtain ⟨⟨hx1, hx2⟩, ⟨hy1, hy2⟩, ⟨hz1, hz2⟩⟩ := h
  unfold recenterV
  rw [recenter_eq_self hL hx1 hx2, recenter_eq_self hL hy1 hy2,
    recenter_eq_self hL hz1 hz2]

/-- C1 (amended): the hierarchical brute-force filter wraps every
displacement component into `[-L/2, L/2)` (up to an integer number of box
lengths) before the norm is taken, but the binary reader's region filter
uses the raw, unwrapped displacement.  The two paths therefore compute the
same distance values — and select the same indices — exactly on particles
whose raw displacement already lies in the window; they differ otherwise
(see the counterexample). -/
theorem c1_wrap_hier_vs_binary (d rad L : ℚ) (p : Vec3)
    (coords : List Vec3) (hL : 0 < L) :
    (-(L/2) ≤ recenter d L ∧ recenter d L < L/2 ∧
      ∃ k : ℤ, recenter d L = d - L * k) ∧
    ((∀ c ∈ coords, inWindow (vsub c p) L) →
      regionIndsOf coords p rad L = binarySelect coords p rad) := by
  refine ⟨⟨(recenter_mem_window hL).1, (recenter_mem_window hL).2,
    recenter_eq_sub_int_mul d L⟩, fun hwin => ?_⟩
  unfold regionIndsOf binarySelect
  congr 1
  apply List.filter_congr
  rintro ⟨i, c⟩ ha
  have hmem : c ∈ coords :=
    List.mem_iff_getElem?.mpr ⟨i, List.mk_mem_enum_iff_getElem?.mp ha⟩
  rw [recenterV_eq_self hL (hwin c hmem)]

/-- C1 witness: with box size 10, a displacement of 9 wraps to -1, is an
integer multiple of the box away from the original, and on a particle
already inside the window the two selection paths agree. -/
theorem c1_wrap_hier_vs_binary_witness :
    (0 < (10:ℚ) ∧ (∀ c ∈ [(⟨1, 0, 0⟩ : Vec3)], inWindow (vsub c v0) 10)) ∧
    regionIndsOf [⟨1, 0, 0⟩] v0 2 10 = binarySelect [⟨1, 0, 0⟩] v0 2 :=
  ⟨⟨by decide, by decide⟩,
    (c1_wrap_hier_vs_binary 9 2 10 v0 [⟨1, 0, 0⟩] (by decide)).2 (by decide)⟩

/-- C1 counterexample: particle at (9,0,0), query center at the origin,
box size 10, radius 2.  The hierarchical brute-force filter wraps the
displacement to (-1,0,0) (squared distance 1) and selects the particle;
the binary filter uses the raw displacement (squared distance 81) and
rejects it — the two paths do not compute the same distance value. -/
theorem c1_counterexample :
    sqNorm (recenterV (vsub ⟨9, 0, 0⟩ v0) 10) = 1 ∧
    sqNorm (vsub ⟨9, 0, 0⟩ v0) = 81 ∧
    regionIndsOf [⟨9, 0, 0⟩] v0 2 10 = [0] ∧
    binaryRegionInds [⟨9, 0, 0⟩] [v0] [2] = some [] := by decide

/-- C2 (amended): both the binary and the hierarchical brute-force path
use the strict comparison `r < radius`, so a particle whose (periodic
resp. raw) distance to the query center is exactly the radius is
EXCLUDED from the region — the selection is an open ball, not a closed
one. -/
theorem c2_boundary_excluded (coords : List Vec3) (pos : Vec3)
    (rad L : ℚ) (i : ℕ) (c : Vec3) (hc : coords[i]? = some c) :
    (sqNorm (recenterV (vsub c pos) L) = rad * rad →
      i ∉ regionIndsOf coords pos rad L) ∧
    (sqNorm (vsub c pos) = rad * rad →
      i ∉ binarySelect coords pos rad) := by
  constructor
  · intro heq hmem
    obtain ⟨c', hget, hsel⟩ := mem_regionIndsOf.mp hmem
    rw [hc] at hget
    cases Option.some.inj hget
    simp only [normLt, Bool.and_eq_true, decide_eq_true_eq] at hsel
    exact absurd hsel.2 (by rw [heq]; exact lt_irrefl _)
  · intro heq hmem
    obtain ⟨c', hget, hsel⟩ := mem_binarySelect.mp hmem
    rw [hc] at hget
    cases Option.some.inj hget
    simp only [normLt, Bool.and_eq_true, decide_eq_true_eq] at hsel
    exact absurd hsel.2 (by rw [heq]; exact lt_irrefl _)

/-- C2 witness: the particle at (2,0,0) sits exactly at distance 2 from
the origin (in both metrics, box size 10) and is excluded by both paths. -/
theorem c2_boundary_excluded_witness :
    ([(⟨2, 0, 0⟩ : Vec3)][0]? = some ⟨2, 0, 0⟩) ∧
    0 ∉ regionIndsOf [⟨2, 0, 0⟩] v0 2 10 ∧
    0 ∉ binarySelect [⟨2, 0, 0⟩] v0 2 :=
  ⟨by decide,
    (c2_boundary_excluded [⟨2, 0, 0⟩] v0 2 10 0 ⟨2, 0, 0⟩ (by decide)).1
      (by decide),
    (c2_boundary_excluded [⟨2, 0, 0⟩] v0 2 10 0 ⟨2, 0, 0⟩ (by decide)).2
      (by decide)⟩

/-- C2 counterexample: a particle exactly at `distance == radius`
(particle (2,0,0), center origin, radius 2, box 10) is selected by
neither path, contradicting the claimed closed-ball inclusion. -/
theorem c2_counterexample :
    sqNorm (recenterV (vsub ⟨2, 0, 0⟩ v0) 10) = 2 * 2 ∧
    regionIndsOf [⟨2, 0, 0⟩] v0 2 10 = [] ∧
    sqNorm (vsub ⟨2, 0, 0⟩ v0) = 2 * 2 ∧
    binaryRegionInds [⟨2, 0, 0⟩] [v0] [2] = some [] := by decide

/-- Each brute-force index set is strictly ascending, hence duplicate-free. -/
theorem regionIndsOf_nodup (coords : List Vec3) (pos : Vec3) (rad L : ℚ) :
    (regionIndsOf coords pos rad L).Nodup := by
  unfold regionIndsOf
  have hsub :
      ((coords.enum.filter
          (fun p => normLt (recenterV (vsub p.2 pos) L) rad)).map
        Prod.fst).Sublist (coords.enum.map Prod.fst) :=
    (List.filter_sublist _).map _
  rw [List.enum_map_fst] at hsub
  exact hsub.nodup (List.nodup_range _)

/-- Bounds and value of an index found in a brute-force index set. -/
theorem of_mem_regionIndsOf {coords : List Vec3} {pos : Vec3} {rad L : ℚ}
    {i : ℕ} (h : i ∈ regionIndsOf coords pos rad L) :
    i < coords.length ∧
      normLt (recenterV (vsub (coords.getD i v0) pos) L) rad = true := by
  obtain ⟨c, hget, hsel⟩ := mem_regionIndsOf.mp h
  obtain ⟨hlt, hval⟩ := List.getElem?_eq_some_iff.mp hget
  refine ⟨hlt, ?_⟩
  rwa [List.getD_eq_getElem coords v0 hlt, hval]

/-- C3 (amended): in the hierarchical path each of the N queries receives
its own index set (one per `(center, radius)` pair), a particle satisfying
two queries' radius tests appears in both of their index sets
independently, and if no particle satisfies two distinct queries the
flattened index vector holds no duplicate.  The binary path does NOT obey
the claim: it applies only the first query (`region_positions[0]`,
`region_radii[0]`), producing a single index set whatever N is. -/
theorem c3_region_query_structure (coords : List Vec3) (ps : List Vec3)
    (rs : List ℚ) (L : ℚ) (hlen : ps.length = rs.length) :
    (hierRegionInds coords ps rs L).length = ps.length ∧
    (∀ j, j < ps.length → ∀ i c, coords[i]? = some c →
      normLt (recenterV (vsub c (ps.getD j v0)) L) (rs.getD j 0) = true →
      i ∈ (hierRegionInds coords ps rs L).getD j []) ∧
    ((ps.zip rs).Pairwise (fun q1 q2 => ∀ i, i < coords.length →
        ¬(normLt (recenterV (vsub (coords.getD i v0) q1.1) L) q1.2 = true ∧
          normLt (recenterV (vsub (coords.getD i v0) q2.1) L) q2.2 = true)) →
      (hierRegionInds coords ps rs L).flatten.Nodup) ∧
    (∀ p r ps' rs', binaryRegionInds coords (p :: ps') (r :: rs') =
      some (binarySelect coords p r)) := by
  have hzlen : (ps.zip rs).length = ps.length := by
    rw [List.length_zip, hlen, Nat.min_self]
  refine ⟨?_, ?_, ?_, fun p r ps' rs' => rfl⟩
  · unfold hierRegionInds
    rw [List.length_map, hzlen]
  · intro j hj i c hget hsel
    have hjz : j < (ps.zip rs).length := hzlen ▸ hj
    have hjm : j < (hierRegionInds coords ps rs L).length := by
      unfold hierRegionInds
      rwa [List.length_map]
    rw [List.getD_eq_getElem _ _ hjm]
    unfold hierRegionInds
    rw [List.getElem_map, List.getElem_zip]
    have hps : ps[j] = ps.getD j v0 :=
      (List.getD_eq_getElem ps v0 hj).symm
    have hrs : rs[j] = rs.getD j 0 :=
      (List.getD_eq_getElem rs 0 (hlen ▸ hj)).symm
    rw [hps, hrs]
    exact mem_regionIndsOf.mpr ⟨c, hget, hsel⟩
  · intro hdisj
    rw [List.nodup_flatten]
    constructor
    · intro l hl
      obtain ⟨q, _, rfl⟩ := List.mem_map.mp hl
      exact regionIndsOf_nodup coords q.1 q.2 L
    · unfold hierRegionInds
      refine List.Pairwise.map _ ?_ hdisj
      intro q1 q2 hR i h1 h2
      obtain ⟨hlt, hsel1⟩ := of_mem_regionIndsOf h1
      obtain ⟨_, hsel2⟩ := of_mem_regionIndsOf h2
      exact hR i hlt ⟨hsel1, hsel2⟩

/-- C3 witness: two disjoint queries on a two-particle box — a per-query
index set each, and the flattened hierarchical index vector is
duplicate-free; the binary filter only ever applies the first query. -/
theorem c3_region_query_structure_witness :
    ([v0, (⟨5, 5, 5⟩ : Vec3)].length = ([2, 1] : List ℚ).length) ∧
    (hierRegionInds [⟨1, 1, 1⟩, ⟨5, 5, 5⟩] [v0, ⟨5, 5, 5⟩] [2, 1]
      10).flatten.Nodup ∧
    binaryRegionInds [⟨1, 1, 1⟩, ⟨5, 5, 5⟩] (v0 :: [⟨5, 5, 5⟩])
      (2 :: [1]) = some (binarySelect [⟨1, 1, 1⟩, ⟨5, 5, 5⟩] v0 2) :=
  ⟨by decide,
    (c3_region_query_structure [⟨1, 1, 1⟩, ⟨5, 5, 5⟩] [v0, ⟨5, 5, 5⟩]
      [2, 1] 10 (by decide)).2.2.1 (by decide),
    (c3_region_query_structure [⟨1, 1, 1⟩, ⟨5, 5, 5⟩] [v0, ⟨5, 5, 5⟩]
      [2, 1] 10 (by decide)).2.2.2 v0 2 [⟨5, 5, 5⟩] [1]⟩

/-- C3 counterexample: one particle inside the second of two regions.
The hierarchical path lists it in the second region's index set, but the
binary path — which the claim also covers — applies only the first query
and returns a single, empty index set: the particle appears in no
region's result there. -/
theorem c3_counterexample :
    hierRegionInds [⟨7, 0, 0⟩] [v0, ⟨7, 0, 0⟩] [1, 1] 10 = [[], [0]] ∧
    binaryRegionInds [⟨7, 0, 0⟩] [v0, ⟨7, 0, 0⟩] [1, 1] = some [] := by
  decide

theorem npCumsum_zero_cons (xs : List ℕ) :
    npCumsum (0 :: xs) = List.scanl (· + ·) 0 xs := by
  unfold npCumsum
  rw [List.scanl_cons]
  rfl

theorem scanl_add_head? (s : ℕ) (xs : List ℕ) :
    (List.scanl (· + ·) s xs).head? = some s := by
  cases xs <;> rfl

theorem scanl_add_chain (s : ℕ) (xs : List ℕ) :
    List.Chain' (· ≤ ·) (List.scanl (· + ·) s xs) := by
  induction xs generalizing s with
  | nil => simp [List.scanl]
  | cons a xs ih =>
      rw [List.scanl_cons]
      refine List.Chain'.cons' (ih (s + a)) ?_
      intro y hy
      simp only [List.append_eq, List.nil_append,
        scanl_add_head? (s + a) xs] at hy
      cases Option.some.inj hy
      exact Nat.le_add_right s a

theorem scanl_add_shift (s : ℕ) (xs : List ℕ) :
    List.scanl (· + ·) s xs = (List.scanl (· + ·) 0 xs).map (fun t => s + t) := by
  induction xs generalizing s with
  | nil => simp [List.scanl]
  | cons a xs ih =>
      rw [List.scanl_cons, List.scanl_cons, ih (s + a), ih (0 + a),
        List.map_append, List.map_map]
      refine congrArg₂ _ (by simp) ?_
      refine List.map_congr_left ?_
      intro t _
      simp only [Function.comp_apply]
      omega

/-- The scanned offsets cut the concatenation of `rs` into exactly the
`rs` pieces. -/
theorem scanl_offsets_slice (rs : List (List ℚ)) :
    ∀ i, i < rs.length →
      sliceOf rs.flatten
        ((List.scanl (· + ·) 0 (rs.map List.length)).getD i 0)
        ((List.scanl (· + ·) 0 (rs.map List.length)).getD (i + 1) 0) =
      rs.getD i [] := by
  induction rs with
  | nil => intro i hi; exact absurd hi (Nat.not_lt_zero i)
  | cons r rest ih =>
      intro i hi
      rw [List.map_cons, List.scanl_cons]
      cases i with
      | zero =>
          have h1 : ([0] ++ List.scanl (· + ·) (0 + r.length)
              (rest.map List.length)).getD 0 0 = 0 := rfl
          have h2 : ([0] ++ List.scanl (· + ·) (0 + r.length)
              (rest.map List.length)).getD 1 0 = r.length := by
            have := scanl_add_head? (0 + r.length) (rest.map List.length)
            cases hxs : List.scanl (· + ·) (0 + r.length) (rest.map List.length)
            · rw [hxs] at this; cases this
            · rw [hxs] at this
              cases Option.some.inj this
              simp
          rw [h1, h2]
          unfold sliceOf
          simp [List.flatten_cons, List.take_left]
      | succ i =>
          have hi' : i < rest.length := Nat.lt_of_succ_lt_succ hi
          have hlen : i < (List.scanl (· + ·) 0 (rest.map List.length)).length := by
            rw [List.length_scanl, List.length_map]
            omega
          have hlen1 : i + 1 <
              (List.scanl (· + ·) 0 (rest.map List.length)).length := by
            rw [List.length_scanl, List.length_map]
            omega
          have hshift := scanl_add_shift (0 + r.length) (rest.map List.length)
          have hg1 : ([0] ++ List.scanl (· + ·) (0 + r.length)
              (rest.map List.length)).getD (i + 1) 0 =
              r.length + (List.scanl (· + ·) 0 (rest.map List.length)).getD i 0 := by
            have : ([0] ++ List.scanl (· + ·) (0 + r.length)
                (rest.map List.length)).getD (i + 1) 0 =
                (List.scanl (· + ·) (0 + r.length)
                  (rest.map List.length)).getD i 0 := rfl
            rw [this, hshift, List.getD_eq_getElem _ _ (by
              rwa [List.length_map]), List.getElem_map,
              List.getD_eq_getElem _ _ hlen]
            omega
          have hg2 : ([0] ++ List.scanl (· + ·) (0 + r.length)
              (rest.map List.length)).getD (i + 2) 0 =
              r.length +
                (List.scanl (· + ·) 0 (rest.map List.length)).getD (i + 1) 0 := by
            have : ([0] ++ List.scanl (· + ·) (0 + r.length)
                (rest.map List.length)).getD (i + 2) 0 =
                (List.scanl (· + ·) (0 + r.length)
                  (rest.map List.length)).getD (i + 1) 0 := rfl
            rw [this, hshift, List.getD_eq_getElem _ _ (by
              rwa [List.length_map]), List.getElem_map,
              List.getD_eq_getElem _ _ hlen1]
            omega
          rw [hg1, hg2]
          unfold sliceOf
          rw [List.flatten_cons, List.drop_append]
          have harith : r.length +
              (List.scanl (· + ·) 0 (rest.map List.length)).getD (i + 1) 0 -
              (r.length +
                (List.scanl (· + ·) 0 (rest.map List.length)).getD i 0) =
              (List.scanl (· + ·) 0 (rest.map List.length)).getD (i + 1) 0 -
              (List.scanl (· + ·) 0 (rest.map List.length)).getD i 0 := by
            omega
          rw [harith]
          have := ih i hi'
          unfold sliceOf at this
          rw [this]
          rfl

/-- C4 (amended): with N region queries, `stack` computes an (N+1)-entry,
monotonically nondecreasing cumulative boundary array over the single
concatenated field array, and region i's particles — drawn from all
sub-files — occupy exactly the slice between boundaries i and i+1.
However the stored `region_offsets` attribute keeps only the first N
boundaries (`region_offsets[:-1]` drops the final total), so the exposed
bookkeeping array has N entries, not N+1; the N `(start, stop)` pairs
survive in `region_slices`. -/
theorem c4_region_offsets_invariant (snapdata : List (List (List ℚ)))
    (nc : ℕ) :
    (stackWithRegions snapdata nc).2.length = nc + 1 ∧
    List.Chain' (· ≤ ·) (stackWithRegions snapdata nc).2 ∧
    (∀ i, i < nc →
      sliceOf (stackWithRegions snapdata nc).1
        ((stackWithRegions snapdata nc).2.getD i 0)
        ((stackWithRegions snapdata nc).2.getD (i + 1) 0) =
      (snapdata.map (fun x => x.getD i [])).flatten) ∧
    (regionOffsetsAttr (stackWithRegions snapdata nc).2).length = nc := by
  have hoff : (stackWithRegions snapdata nc).2 =
      List.scanl (· + ·) 0 ((stackRegions snapdata nc).map List.length) :=
    npCumsum_zero_cons _
  have hreglen : (stackRegions snapdata nc).length = nc := by
    unfold stackRegions
    rw [List.length_map, List.length_range]
  refine ⟨?_, ?_, ?_, ?_⟩
  · rw [hoff, List.length_scanl, List.length_map, hreglen]
  · rw [hoff]; exact scanl_add_chain 0 _
  · intro i hi
    have hi' : i < (stackRegions snapdata nc).length := by rwa [hreglen]
    have := scanl_offsets_slice (stackRegions snapdata nc) i hi'
    rw [hoff]
    unfold stackWithRegions
    rw [this]
    unfold stackRegions
    rw [List.getD_eq_getElem _ _ (by rwa [List.length_map, List.length_range]),
      List.getElem_map, List.getElem_range]
  · rw [regionOffsetsAttr, List.length_dropLast, hoff, List.length_scanl,
      List.length_map, hreglen]
    omega

/-- C4 witness: two sub-files, one region — the N+1 = 2 internal
boundaries recover the region as a contiguous slice, while the stored
`region_offsets` attribute retains only N = 1 of them. -/
theorem c4_region_offsets_invariant_witness :
    (0 < 1) ∧
    sliceOf (stackWithRegions [[[1, 2]], [[3]]] 1).1
      ((stackWithRegions [[[1, 2]], [[3]]] 1).2.getD 0 0)
      ((stackWithRegions [[[1, 2]], [[3]]] 1).2.getD 1 0) =
      ([[[1, 2]], [[3]]].map (fun x => x.getD 0 [])).flatten ∧
    (regionOffsetsAttr (stackWithRegions [[[1, 2]], [[3]]] 1).2).length = 1 :=
  ⟨by decide,
    (c4_region_offsets_invariant [[[1, 2]], [[3]]] 1).2.2.1 0 (by decide),
    (c4_region_offsets_invariant [[[1, 2]], [[3]]] 1).2.2.2⟩

/-- C4 counterexample: with N = 1 region the claim demands N+1 = 2
cumulative boundaries in the output's bookkeeping array, but the stored
`region_offsets` attribute has a single entry — the final boundary is
dropped. -/
theorem c4_counterexample :
    regionOffsetsAttr (stackWithRegions [[[1, 2]], [[3]]] 1).2 = [0] ∧
    (regionOffsetsAttr (stackWithRegions [[[1, 2]], [[3]]] 1).2).length ≠
      1 + 1 := by decide

theorem findSubfileCol_spec {splt : List (List (List Char))} :
    ∀ (fuel s i : ℕ), findSubfileCol splt s fuel = some i →
      splt.all (fun row => pyIsDigit (row.getD i [])) = true ∧
      ∀ j, s ≤ j → j < i →
        splt.all (fun row => pyIsDigit (row.getD j [])) = false
  | 0, s, i, h => by cases h
  | fuel + 1, s, i, h => by
      unfold findSubfileCol at h
      split at h
      case isTrue hp =>
        cases Option.some.inj h
        exact ⟨hp, fun j h1 h2 => absurd h2 (Nat.not_lt.mpr h1)⟩
      case isFalse hp =>
        obtain ⟨ha, hb⟩ := findSubfileCol_spec fuel (s + 1) i h
        refine ⟨ha, fun j h1 h2 => ?_⟩
        by_cases hj : j = s
        · subst hj
          exact Bool.eq_false_iff.mpr hp
        · exact hb j (by omega) h2

theorem findSubfileCol_eq_none {splt : List (List (List Char))} :
    ∀ (fuel s : ℕ),
      (∀ j, s ≤ j → j < s + fuel →
        splt.all (fun row => pyIsDigit (row.getD j [])) = false) →
      findSubfileCol splt s fuel = none
  | 0, _, _ => rfl
  | fuel + 1, s, h => by
      unfold findSubfileCol
      rw [h s le_rfl (by omega)]
      simp only [Bool.false_eq_true, if_false]
      exact findSubfileCol_eq_none fuel (s + 1)
        (fun j h1 h2 => h j (by omega) (by omega))

/-- C7: when a pattern matches several files, `reorder_subfiles` splits
every filename on `'.'`, takes the first dot-column in which every file's
entry is purely numeric, and returns the files reordered ascending by that
column's integer value; in particular the three-file example of the spec
is returned in sub-file order. -/
theorem c7_subfile_reorder (fs out : List String)
    (h : reorder_subfiles fs = some out) :
    (out.Perm fs ∧
      ∃ ii,
        ((splitAll fs).all
          (fun row => pyIsDigit (row.getD ii []))) = true ∧
        (∀ jj, jj < ii →
          ((splitAll fs).all
            (fun row => pyIsDigit (row.getD jj []))) = false) ∧
        List.Sorted (· ≤ ·) (out.map (subKey ii))) ∧
    reorder_subfiles ["snap.0.hdf5", "snap.2.hdf5", "snap.1.hdf5"] =
      some ["snap.0.hdf5", "snap.1.hdf5", "snap.2.hdf5"] := by
  refine ⟨?_, by decide⟩
  unfold reorder_subfiles at h
  split at h
  case isFalse => cases h
  case isTrue hrect =>
    split at h
    case h_2 => cases h
    case h_1 ii hfind =>
      cases Option.some.inj h
      obtain ⟨hdig, hfirst⟩ := findSubfileCol_spec _ 0 ii hfind
      have hperm : ((fs.map (fun f => (subKey ii f, f))).insertionSort
          keyLe).Perm (fs.map (fun f => (subKey ii f, f))) :=
        List.perm_insertionSort keyLe _
      constructor
      · have := hperm.map Prod.snd
        rwa [List.map_map, show Prod.snd ∘ (fun f => (subKey ii f, f)) = id
          from rfl, List.map_id] at this
      · refine ⟨ii, hdig, fun jj hjj => hfirst jj (Nat.zero_le jj) hjj, ?_⟩
        have hsorted : List.Sorted keyLe
            ((fs.map (fun f => (subKey ii f, f))).insertionSort keyLe) :=
          List.sorted_insertionSort keyLe _
        have hinv : ∀ p ∈ (fs.map (fun f => (subKey ii f, f))).insertionSort
            keyLe, p.1 = subKey ii p.2 := by
          intro p hp
          obtain ⟨f, _, rfl⟩ := List.mem_map.mp (hperm.subset hp)
          rfl
        have hmapeq :
            (((fs.map (fun f => (subKey ii f, f))).insertionSort keyLe).map
              Prod.snd).map (subKey ii) =
            ((fs.map (fun f => (subKey ii f, f))).insertionSort keyLe).map
              Prod.fst := by
          rw [List.map_map]
          exact List.map_congr_left (fun p hp => (hinv p hp).symm)
        rw [hmapeq]
        exact hsorted.map Prod.fst (fun a b hab => hab)

/-- C7 witness: the spec's example, reordered by the first numeric
dot-column, is a permutation of the input. -/
theorem c7_subfile_reorder_witness :
    (reorder_subfiles ["snap.0.hdf5", "snap.2.hdf5", "snap.1.hdf5"] =
      some ["snap.0.hdf5", "snap.1.hdf5", "snap.2.hdf5"]) ∧
    (["snap.0.hdf5", "snap.1.hdf5", "snap.2.hdf5"] : List String).Perm
      ["snap.0.hdf5", "snap.2.hdf5", "snap.1.hdf5"] :=
  ⟨by decide,
    (c7_subfile_reorder ["snap.0.hdf5", "snap.2.hdf5", "snap.1.hdf5"]
      ["snap.0.hdf5", "snap.1.hdf5", "snap.2.hdf5"] (by decide)).1.1⟩

/-- C8: if no dot-column is all-numeric across the matched files (this
includes the ragged case, which numpy rejects with the same error),
`reorder_subfiles` raises the ambiguous-sub-file `ValueError` — modelled
as `none` — and produces no ordering; in particular on
`["a.hdf5", "b.hdf5"]`. -/
theorem c8_ambiguous_subfile_error (fs : List String)
    (h : ∀ ii, ii < ((splitAll fs).headD []).length →
      ((splitAll fs).all
        (fun row => pyIsDigit (row.getD ii []))) = false) :
    reorder_subfiles fs = none ∧
    reorder_subfiles ["a.hdf5", "b.hdf5"] = none := by
  refine ⟨?_, by decide⟩
  unfold reorder_subfiles
  split
  case isFalse => rfl
  case isTrue hrect =>
    rw [findSubfileCol_eq_none _ 0 (fun j h1 h2 => h j (by omega))]

/-- C5 (code bug, evaluated at the failing input): on `pdGas` the two
index-application strategies agree for ParticleIDs and InternalEnergy,
but NOT for Density — `read_mode == 1` splits the full, unindexed density
dataset (the source fancy-indexes `formation_times` instead of
`densities`, sim_readers.py:595, which raises `TypeError` at runtime), so
the claimed mode equivalence fails on the density field. -/
theorem c5_density_mode_divergence :
    (read_files pdGas 1 (some ([v0], [2])) 10 true true true true
        .one).getD 6 .absent ≠
      (read_files pdGas 1 (some ([v0], [2])) 10 true true true true
        .two).getD 6 .absent ∧
    (read_files pdGas 1 (some ([v0], [2])) 10 true true true true
        .one).getD 0 .absent =
      (read_files pdGas 1 (some ([v0], [2])) 10 true true true true
        .two).getD 0 .absent ∧
    (read_files pdGas 1 (some ([v0], [2])) 10 true true true true
        .one).getD 7 .absent =
      (read_files pdGas 1 (some ([v0], [2])) 10 true true true true
        .two).getD 7 .absent := by decide

/-- C6 (code bug, evaluated at the failing input): a sub-file in which
every region query matches zero particles returns a SIX-component tuple —
with no slot at all for density or internal energy, although both
datasets are present on this gas file — while a non-empty sub-file of the
same snapshot returns the EIGHT-component tuple that the merge step
(`stack(6)`, `stack(7)`, sim_readers.py:668-671) indexes into. -/
theorem c6_empty_region_arity_mismatch :
    (read_files pdMiss 1 (some ([v0], [2])) 10 true true true true
        .one).length = 6 ∧
    (read_files pdGas 1 (some ([v0], [2])) 10 true true true true
        .one).length = 8 ∧
    ((read_files pdMiss 1 (some ([v0], [2])) 10 true true true true
        .one).getD 6 .absent = .absent ∧
      (read_files pdGas 1 (some ([v0], [2])) 10 true true true true
        .one).getD 6 .absent ≠ .absent) := by decide

/-- C8 witness: `["a.hdf5", "b.hdf5"]` has no all-numeric dot-column, and
the locator reports the ambiguous-sub-file error. -/
theorem c8_ambiguous_subfile_error_witness :
    (∀ ii, ii < ((splitAll ["a.hdf5", "b.hdf5"]).headD []).length →
      ((splitAll ["a.hdf5", "b.hdf5"]).all
        (fun row => pyIsDigit (row.getD ii []))) = false) ∧
    reorder_subfiles ["a.hdf5", "b.hdf5"] = none :=
  ⟨by decide, (c8_ambiguous_subfile_error ["a.hdf5", "b.hdf5"]
    (by decide)).1⟩

theorem mem_idx_with_mass {mass_table : List ℚ} {j : ℕ} :
    j ∈ idx_with_mass mass_table ↔
      j < mass_table.length ∧ mass_table.getD j 0 = 0 := by
  unfold idx_with_mass
  simp [List.mem_filter, List.mem_range]

theorem idx_with_mass_pairwise (mass_table : List ℚ) :
    List.Pairwise (· < ·) (idx_with_mass mass_table) :=
  (List.pairwise_lt_range _).filter _

/-- In a strictly ascending list, the prefix up to and including an
element collects exactly the entries that do not exceed it. -/
theorem take_indexOf_succ_of_sorted {l : List ℕ}
    (hs : List.Pairwise (· < ·) l) {pt : ℕ} (hmem : pt ∈ l) :
    l.take (l.indexOf pt + 1) = l.filter (fun i => decide (i ≤ pt)) := by
  induction l with
  | nil => cases hmem
  | cons a l ih =>
      by_cases ha : a = pt
      · subst ha
        rw [List.indexOf_cons_self]
        have hgt : ∀ x ∈ l, a < x := fun x hx => List.rel_of_pairwise_cons hs hx
        have hfl : l.filter (fun i => decide (i ≤ a)) = [] := by
          rw [List.filter_eq_nil_iff]
          intro x hx
          simpa using Nat.not_le.mpr (hgt x hx)
        simp [List.filter_cons, hfl]
      · have hmem' : pt ∈ l := by
          cases List.mem_cons.mp hmem with
          | inl h => exact absurd h.symm ha
          | inr h => exact h
        have hlt : a < pt := List.rel_of_pairwise_cons hs hmem'
        rw [List.indexOf_cons_ne _ (by simpa using ha)]
        rw [List.filter_cons_of_pos (by simpa using hlt.le)]
        rw [List.take_succ_cons]
        rw [ih (List.Pairwise.of_cons hs) hmem']

/-- Splitting the inclusive prefix sum at `pt` itself. -/
theorem sum_take_indexOf_succ {l : List ℕ} (hs : List.Pairwise (· < ·) l)
    (hnd : l.Nodup) {pt : ℕ} (hmem : pt ∈ l) (c : ℕ → ℕ) :
    ((l.take (l.indexOf pt + 1)).map c).sum =
      ((l.filter (fun i => decide (i < pt))).map c).sum + c pt := by
  rw [take_indexOf_succ_of_sorted hs hmem]
  induction l with
  | nil => cases hmem
  | cons a l ih =>
      by_cases ha : a = pt
      · subst ha
        have hgt : ∀ x ∈ l, a < x := fun x hx => List.rel_of_pairwise_cons hs hx
        have hfl1 : l.filter (fun i => decide (i ≤ a)) = [] := by
          rw [List.filter_eq_nil_iff]
          intro x hx
          simpa using Nat.not_le.mpr (hgt x hx)
        have hfl2 : (a :: l).filter (fun i => decide (i < a)) = [] := by
          rw [List.filter_eq_nil_iff]
          intro x hx
          cases List.mem_cons.mp hx with
          | inl h => simp [h]
          | inr h => simpa using Nat.not_lt.mpr (hgt x h).le
        rw [List.filter_cons_of_pos (by simp), hfl1, hfl2]
        simp
      · have hmem' : pt ∈ l := by
          cases List.mem_cons.mp hmem with
          | inl h => exact absurd h.symm ha
          | inr h => exact h
        have hlt : a < pt := List.rel_of_pairwise_cons hs hmem'
        rw [List.filter_cons_of_pos (by simpa using hlt.le),
          List.filter_cons_of_pos (by simpa using hlt)]
        simp only [List.map_cons, List.sum_cons]
        rw [ih (List.Pairwise.of_cons hs) (List.Nodup.of_cons hnd) hmem']
        omega

/-- C9 (amended): the binary mass read branches on the mass-table entry of
the requested type.  A non-zero entry yields that table scalar and the
mass blocks are never consulted (the result is independent of them).  A
zero entry reads this type's slice of each file's mass block, whose layout
skips exactly the types with a non-zero table mass (the seek offset is the
sum of the zero-table-type counts preceding `pt`); the result is the
concatenated per-particle vector — unless all of its entries are equal, in
which case the source collapses it to that single scalar
(sim_readers.py:427-430), so the representation is not determined by the
table entry alone. -/
theorem c9_binary_mass_representation (mass_table : List ℚ) (pt : ℕ)
    (files files' : List BinFile) (counts : List ℕ) :
    (mass_table.getD pt 0 ≠ 0 →
      read_binary_masses mass_table pt files =
        .scalar (mass_table.getD pt 0) ∧
      read_binary_masses mass_table pt files =
        read_binary_masses mass_table pt files') ∧
    (mass_table.getD pt 0 = 0 → pt < mass_table.length →
      massBlockOffset mass_table pt counts =
        (((idx_with_mass mass_table).filter (fun i => decide (i < pt))).map
          (fun i => counts.getD i 0)).sum ∧
      ((binaryMassVector mass_table pt files).all
          (fun m =>
            decide (m = (binaryMassVector mass_table pt files).headD 0)) =
            false →
        read_binary_masses mass_table pt files =
          .vector (binaryMassVector mass_table pt files))) := by
  constructor
  · intro hne
    have hft : masses_from_table mass_table pt = true := by
      unfold masses_from_table
      rw [decide_eq_true_eq]
      intro hmem
      exact hne (mem_idx_with_mass.mp hmem).2
    constructor
    · unfold read_binary_masses
      rw [hft]
      rfl
    · unfold read_binary_masses
      rw [hft]
      rfl
  · intro hz hlt
    have hmem : pt ∈ idx_with_mass mass_table :=
      mem_idx_with_mass.mpr ⟨hlt, hz⟩
    have hft : masses_from_table mass_table pt = false := by
      unfold masses_from_table
      simp [hmem]
    constructor
    · unfold massBlockOffset
      rw [sum_take_indexOf_succ (idx_with_mass_pairwise mass_table)
        ((List.pairwise_lt_range _).filter _).nodup hmem
        (fun i => counts.getD i 0)]
      omega
    · intro hall
      unfold read_binary_masses
      rw [hft]
      simp only [Bool.false_eq_true, if_false]
      rw [hall]
      simp

/-- C9 witness: table `[2, 0]` — type 0 takes the scalar 2 from the table
(whatever the blocks hold), type 1 reads `[5, 7]` from the block. -/
theorem c9_binary_mass_representation_witness :
    ((2 : ℚ) ≠ 0) ∧
    read_binary_masses [2, 0] 0 [⟨[1, 2], [5, 7]⟩] = .scalar 2 ∧
    read_binary_masses [2, 0] 0 [⟨[1, 2], [5, 7]⟩] =
      read_binary_masses [2, 0] 0 [⟨[9, 9], [1, 2, 3]⟩] ∧
    read_binary_masses [2, 0] 1 [⟨[1, 2], [5, 7]⟩] = .vector [5, 7] :=
  ⟨by decide,
    ((c9_binary_mass_representation [2, 0] 0 [⟨[1, 2], [5, 7]⟩]
      [⟨[9, 9], [1, 2, 3]⟩] []).1 (by decide)).1,
    ((c9_binary_mass_representation [2, 0] 0 [⟨[1, 2], [5, 7]⟩]
      [⟨[9, 9], [1, 2, 3]⟩] []).1 (by decide)).2,
    (((c9_binary_mass_representation [2, 0] 1 [⟨[1, 2], [5, 7]⟩]
      [] []).2 (by decide) (by decide)).2 (by decide))⟩

/-- C9 counterexample: type 1 has a zero table entry, so per the claim the
result should be the per-particle vector read from the block — but the
three block entries are all equal and the source collapses them to a
scalar. -/
theorem c9_counterexample :
    read_binary_masses [0, 0] 1 [⟨[2, 3], [7, 7, 5, 5, 5]⟩] = .scalar 5 ∧
    read_binary_masses [0, 0] 1 [⟨[2, 3], [7, 7, 5, 5, 5]⟩] ≠
      .vector [5, 5, 5] := by decide

/-- C10: when `load_ids`, `load_coords`, `load_vels` and `load_masses` are
all false, `read_snapshot` resolves the unit system and header parameters
from the first sub-file and returns immediately: no particle array
attribute and no region bookkeeping is created, even when region queries
were supplied. -/
theorem c10_no_load_early_return (files : List HFile)
    (initUnits : Option ℚ × Option ℚ × Option ℚ)
    (regionQ : Option (List Vec3 × List ℚ)) (mode : ReadMode)
    (li lc lv lm : Bool) (h : (li || lc || lv || lm) = false) :
    (read_snapshot files initUnits regionQ li lc lv lm mode).params =
      read_parameters_hdf5 (files.headD hfile0).meta initUnits ∧
    (read_snapshot files initUnits regionQ li lc lv lm mode).ids = none ∧
    (read_snapshot files initUnits regionQ li lc lv lm mode).coordinates =
      none ∧
    (read_snapshot files initUnits regionQ li lc lv lm mode).velocities =
      none ∧
    (read_snapshot files initUnits regionQ li lc lv lm mode).masses = none ∧
    (read_snapshot files initUnits regionQ li lc lv lm
      mode).metallicities = none ∧
    (read_snapshot files initUnits regionQ li lc lv lm
      mode).formation_times = none ∧
    (read_snapshot files initUnits regionQ li lc lv lm mode).densities =
      none ∧
    (read_snapshot files initUnits regionQ li lc lv lm
      mode).internal_energies = none ∧
    (read_snapshot files initUnits regionQ li lc lv lm
      mode).region_offsets = none ∧
    (read_snapshot files initUnits regionQ li lc lv lm
      mode).region_slices = none := by
  unfold read_snapshot
  rw [h]
  simp

/-- C10 witness: a one-file snapshot with a supplied region query and all
load flags false keeps its resolved parameters but creates neither
particle arrays nor region offsets. -/
theorem c10_no_load_early_return_witness :
    ((false || false || false || false) = false) ∧
    (read_snapshot [hfile0] (none, none, none) (some ([v0], [1])) false
      false false false .one).params =
      read_parameters_hdf5 ([hfile0].headD hfile0).meta
        (none, none, none) ∧
    (read_snapshot [hfile0] (none, none, none) (some ([v0], [1])) false
      false false false .one).ids = none ∧
    (read_snapshot [hfile0] (none, none, none) (some ([v0], [1])) false
      false false false .one).region_offsets = none :=
  ⟨rfl,
    (c10_no_load_early_return [hfile0] (none, none, none)
      (some ([v0], [1])) .one false false false false rfl).1,
    (c10_no_load_early_return [hfile0] (none, none, none)
      (some ([v0], [1])) .one false false false false rfl).2.1,
    (c10_no_load_early_return [hfile0] (none, none, none)
      (some ([v0], [1])) .one false false false false rfl).2.2.2.2.2.2.2.2.2.1⟩

end Simtools
